import Mathlib

/-!
Verification development for the Metro Bilbao train position simulation engine
(`src/js/trains-simulator.js` and the time parser of `src/js/gtfs-parser.js`).

The JavaScript code is shallowly embedded: JS numbers that only ever hold
schedule times, offsets, coordinates and distances are modelled as rationals
(`ℚ`), JS `Map`s as association lists or total functions, and `null`able
values as `Option`.  The `Date`-derived quantities (`getSecondsFromMidnight`,
`getDateString`, `getDay`, `getTime`) are packaged in `NowInfo` since the
claims never exercise the calendar arithmetic itself.
-/

namespace MetroSim

/-- A stop (station) from the static feed: `stopsById` values. -/
structure Stop where
  id : String
  name : String
  lat : ℚ
  lon : ℚ
deriving DecidableEq

/-- One point of a route geometry; the simulator reads `lat`, `lon` and the
cumulative distance `dist` of each point. -/
structure ShapePoint where
  lat : ℚ
  lon : ℚ
  dist : ℚ
deriving DecidableEq

/-- A route geometry: the ordered list of its points. -/
structure Shape where
  points : List ShapePoint
deriving DecidableEq

/-- One timed stop of a trip (`trip.stop_times[i]`).  `shape_dist` is `none`
when the source feed had no distance and the fill-in pass did not run. -/
structure StopTime where
  stop_id : String
  arrival : ℚ
  departure : ℚ
  shape_dist : Option ℚ
deriving DecidableEq

/-- A trip from `tripsById`. -/
structure Trip where
  id : String
  route_id : String
  service_id : String
  shape_id : String
  service_number : String
  stop_times : List StopTime
deriving DecidableEq

/-- A `calendar.txt` row; the seven day flags and the dates are the raw CSV
strings, exactly as the JS code compares them. -/
structure CalendarEntry where
  service_id : String
  sunday : String
  monday : String
  tuesday : String
  wednesday : String
  thursday : String
  friday : String
  saturday : String
  start_date : String
  end_date : String
deriving DecidableEq

/-- A `calendar_dates.txt` row. -/
structure CalendarDate where
  service_id : String
  date : String
  exception_type : String
deriving DecidableEq

/-- The loaded GTFS snapshot handed to `TrainSimulator`.  Stop lookups are a
total function (the claims only concern trips whose endpoints resolve); shape
lookups can fail, which is exactly the `!shape` branch of the code. -/
structure GtfsData where
  stopsById : String → Stop
  shapesById : String → Option Shape
  trips : List Trip
  calendar : List CalendarEntry
  calendar_dates : List CalendarDate

/-- The per-trip output object built by `calculateTrainPosition`.  Fields that
a given code path does not set keep their defaults, mirroring JS objects with
absent keys (`stop_name` is only set while dwelling). -/
structure Snapshot where
  trip_id : String
  route_id : String
  lat : ℚ
  lon : ℚ
  status : String
  service_number : String := ""
  stop_name : Option String := none
  next_stop_id : String := ""
  next_stop_name : String := ""
  next_stop_arrival : ℚ := 0
  destination_name : String := ""
  destination_arrival : ℚ := 0
  delay : ℚ := 0
deriving DecidableEq

/-- The smoothing state kept in `this.tripStates` for one trip. -/
structure TripState where
  lastAdjustedTime : ℚ
  lastWallClock : ℚ
  status : String
  next_stop_arrival : Option ℚ
deriving DecidableEq

/-- The mutable per-simulator stores touched by `update` (the `activeTrains`
render map is returned as the snapshot list). -/
structure SimState where
  tripStates : List (String × TripState)
  realTimeOffsets : List (String × ℚ)
deriving DecidableEq

/-- The `Date`-derived inputs of one tick. -/
structure NowInfo where
  secondsFromMidnight : ℚ
  dateStr : String
  dayOfWeek : Nat
  timestampMs : ℚ
deriving DecidableEq

/-- One live platform entry from the real-time API. -/
structure PlatformEntry where
  Destination : String
  Minutes : String
  Length : Option String
deriving DecidableEq

/-- The `bestMatch` record accumulated by `syncWithRealTime`. -/
structure BestMatch where
  apiArrival : ℚ
  scheduledArrival : ℚ
  length : Option String
deriving DecidableEq

/-- JS `Map.set` on an association list: overwrite in place if the key is
present, append otherwise. -/
def mapSet {α : Type} (m : List (String × α)) (k : String) (v : α) : List (String × α) :=
  if m.any (fun p => p.1 == k) then
    m.map (fun p => if p.1 == k then (k, v) else p)
  else
    m ++ [(k, v)]

/-! Position Interpolator (`calculateTrainPosition`, lines 230–331) -/

/-- Result of the stop-time scan loop of `calculateTrainPosition`. -/
inductive ScanResult where
  | none
  | dwell (cur next : StopTime)
  | move (prev next : StopTime)
deriving DecidableEq

/-- The loop of `calculateTrainPosition` lines 234–258: walk consecutive
stop-time pairs; the moving check is tried before the dwelling check, and the
final stop never starts a pair. -/
def scanStops (time : ℚ) : List StopTime → ScanResult
  | a :: b :: rest =>
    if a.departure ≤ time ∧ time < b.arrival then ScanResult.move a b
    else if a.arrival ≤ time ∧ time < a.departure then ScanResult.dwell a b
    else scanStops time (b :: rest)
  | _ => ScanResult.none

/-- The `currentDist` computation of lines 285–287: target distance along the shape. -/
def currentDistance (prevStop nextStop : StopTime) (time distA distB : ℚ) : ℚ :=
  let totalTime := nextStop.arrival - prevStop.departure
  let elapsed := time - prevStop.departure
  distA + (distB - distA) * (elapsed / totalTime)

/-- Loop body of `getPointAtDistance` (lines 314–331): find the first segment
whose cumulative distances bracket the target; `(segLen || 1)` maps a
zero-length segment to divisor 1. -/
def gpadLoop (targetDist : ℚ) (trip : Trip) : List ShapePoint → Option Snapshot
  | p :: q :: rest =>
    if p.dist ≤ targetDist ∧ targetDist ≤ q.dist then
      let segLen := q.dist - p.dist
      let fraction := (targetDist - p.dist) / (if segLen = 0 then 1 else segLen)
      some { trip_id := trip.id, route_id := trip.route_id,
             lat := p.lat + (q.lat - p.lat) * fraction,
             lon := p.lon + (q.lon - p.lon) * fraction,
             status := "moving",
             next_stop_name := "..." }
    else gpadLoop targetDist trip (q :: rest)
  | _ => none

/-- Model of `getPointAtDistance(shape, targetDist, trip)`. -/
def getPointAtDistance (shape : Shape) (targetDist : ℚ) (trip : Trip) : Option Snapshot :=
  gpadLoop targetDist trip shape.points

/-- The straight-line moving snapshot (lines 266–280 and the identical
fallback of lines 299–312). -/
def straightSnapshot (g : GtfsData) (trip : Trip) (time : ℚ)
    (prevStop nextStop lastStop : StopTime) : Snapshot :=
  let p1 := g.stopsById prevStop.stop_id
  let p2 := g.stopsById nextStop.stop_id
  let progress := (time - prevStop.departure) / (nextStop.arrival - prevStop.departure)
  { trip_id := trip.id, route_id := trip.route_id, service_number := trip.service_number,
    lat := p1.lat + (p2.lat - p1.lat) * progress,
    lon := p1.lon + (p2.lon - p1.lon) * progress,
    status := "moving",
    next_stop_id := nextStop.stop_id,
    next_stop_name := (g.stopsById nextStop.stop_id).name,
    next_stop_arrival := nextStop.arrival,
    destination_name := (g.stopsById lastStop.stop_id).name,
    destination_arrival := lastStop.arrival }

/-- Model of `calculateTrainPosition(trip, time)`, lines 230–313. -/
def calculateTrainPosition (g : GtfsData) (trip : Trip) (time : ℚ) : Option Snapshot :=
  match scanStops time trip.stop_times with
  | ScanResult.none => none
  | ScanResult.dwell cur next =>
    match trip.stop_times.getLast? with
    | none => none
    | some lastStop =>
      let stopInfo := g.stopsById cur.stop_id
      some { trip_id := trip.id, route_id := trip.route_id,
             service_number := trip.service_number,
             lat := stopInfo.lat, lon := stopInfo.lon, status := "dwelling",
             stop_name := some stopInfo.name,
             next_stop_id := next.stop_id,
             next_stop_name := (g.stopsById next.stop_id).name,
             next_stop_arrival := next.arrival,
             destination_name := (g.stopsById lastStop.stop_id).name,
             destination_arrival := lastStop.arrival }
  | ScanResult.move prevStop nextStop =>
    match trip.stop_times.getLast? with
    | none => none
    | some lastStop =>
      match g.shapesById trip.shape_id with
      | none => some (straightSnapshot g trip time prevStop nextStop lastStop)
      | some shape =>
        let fromShape :=
          match prevStop.shape_dist, nextStop.shape_dist with
          | some distA, some distB =>
            getPointAtDistance shape (currentDistance prevStop nextStop time distA distB) trip
          | _, _ => none
        match fromShape with
        | some position =>
          some { position with
                 service_number := trip.service_number,
                 next_stop_id := nextStop.stop_id,
                 next_stop_name := (g.stopsById nextStop.stop_id).name,
                 next_stop_arrival := nextStop.arrival,
                 destination_name := (g.stopsById lastStop.stop_id).name,
                 destination_arrival := lastStop.arrival }
        | none => some (straightSnapshot g trip time prevStop nextStop lastStop)

/-! Smoothing Controller (`update`, lines 54–103) -/

/-- Lines 56–82: the speed-clamped advance before the next-stop cap.
`minSpeed` is `0.5` exactly when the stored status is `'moving'`. -/
def clampedAdvance (state : TripState) (targetAdjustedTime currentTimestamp : ℚ) : ℚ :=
  let timeSinceLastUpdate := (currentTimestamp - state.lastWallClock) / 1000
  let minSpeed : ℚ := if state.status = "moving" then 1/2 else 0
  let maxSpeed : ℚ := 3
  let minAdvance := timeSinceLastUpdate * minSpeed
  let maxAdvance := timeSinceLastUpdate * maxSpeed
  let rawDiff := targetAdjustedTime - state.lastAdjustedTime
  if rawDiff < minAdvance then minAdvance
  else if maxAdvance < rawDiff then maxAdvance
  else rawDiff

/-- Lines 84–100: cap a forced advance at the next stop's arrival.  The JS
guard `state.next_stop_arrival` is truthy, hence the `maxTime ≠ 0` test. -/
def smoothedAdvance (state : TripState) (targetAdjustedTime currentTimestamp : ℚ) : ℚ :=
  let validAdvance := clampedAdvance state targetAdjustedTime currentTimestamp
  match state.next_stop_arrival with
  | some maxTime =>
    if state.status = "moving" ∧ maxTime ≠ 0 then
      if maxTime < state.lastAdjustedTime + validAdvance then
        if 0 ≤ maxTime - state.lastAdjustedTime then maxTime - state.lastAdjustedTime
        else validAdvance
      else validAdvance
    else validAdvance
  | none => validAdvance

/-- Line 102: the effective simulation time fed to the interpolator when a
smoothing state exists. -/
def smoothTime (state : TripState) (targetAdjustedTime currentTimestamp : ℚ) : ℚ :=
  state.lastAdjustedTime + smoothedAdvance state targetAdjustedTime currentTimestamp

/-! Active Service Resolver (`getActiveServices`, lines 203–223) -/

/-- JS `Set.add`: append if absent (order-preserving). -/
def addService (acc : List String) (s : String) : List String :=
  if s ∈ acc then acc else acc ++ [s]

/-- JS `Set.delete`. -/
def removeService (acc : List String) (s : String) : List String :=
  acc.filter (fun x => x ≠ s)

/-- The day flag `cal[days[dayOfWeek]]`: the day-flag string selected by the JS day-name
array; an out-of-range day indexes `undefined`, which never equals `'1'`. -/
def dayField (cal : CalendarEntry) (dayOfWeek : Nat) : String :=
  match dayOfWeek with
  | 0 => cal.sunday
  | 1 => cal.monday
  | 2 => cal.tuesday
  | 3 => cal.wednesday
  | 4 => cal.thursday
  | 5 => cal.friday
  | 6 => cal.saturday
  | _ => ""

/-- JS `<` on two strings: lexicographic comparison of code units. -/
def jsStringLtChars : List Char → List Char → Bool
  | [], [] => false
  | [], _ :: _ => true
  | _ :: _, [] => false
  | a :: as, b :: bs =>
    if a.toNat < b.toNat then true
    else if b.toNat < a.toNat then false
    else jsStringLtChars as bs

/-- JS `s <= t`, i.e. `!(t < s)`. -/
def jsStringLe (s t : String) : Bool :=
  !(jsStringLtChars t.data s.data)

/-- The base-calendar test of line 209 (JS string comparison on dates). -/
def calendarApplies (cal : CalendarEntry) (dateStr : String) (dayOfWeek : Nat) : Prop :=
  dayField cal dayOfWeek = "1" ∧
    jsStringLe cal.start_date dateStr = true ∧ jsStringLe dateStr cal.end_date = true

instance (cal : CalendarEntry) (dateStr : String) (dayOfWeek : Nat) :
    Decidable (calendarApplies cal dateStr dayOfWeek) := by
  unfold calendarApplies; infer_instance

/-- One step of the base-calendar pass (lines 208–212). -/
def baseStep (dateStr : String) (dayOfWeek : Nat) (acc : List String) (cal : CalendarEntry) :
    List String :=
  if calendarApplies cal dateStr dayOfWeek then addService acc cal.service_id else acc

/-- One step of the exception pass (lines 214–221): an exception of any other
type is ignored. -/
def excStep (dateStr : String) (acc : List String) (cd : CalendarDate) : List String :=
  if cd.date = dateStr then
    if cd.exception_type = "1" then addService acc cd.service_id
    else if cd.exception_type = "2" then removeService acc cd.service_id
    else acc
  else acc

/-- Model of `getActiveServices(dateStr, dayOfWeek)`, lines 203–223.  The JS guards on
non-empty arrays are dropped: iterating an empty array is a no-op anyway. -/
def getActiveServices (g : GtfsData) (dateStr : String) (dayOfWeek : Nat) : List String :=
  g.calendar_dates.foldl (excStep dateStr) (g.calendar.foldl (baseStep dateStr dayOfWeek) [])

/-- The claim's base-calendar condition for service `s`: some calendar row
for `s` has the day flag set and covers the date. -/
def baseCalendarActive (g : GtfsData) (dateStr : String) (dayOfWeek : Nat) (s : String) : Prop :=
  ∃ cal ∈ g.calendar, calendarApplies cal dateStr dayOfWeek ∧ cal.service_id = s

/-- An exception row that affects service `s` on this exact date. -/
def relevantException (dateStr s : String) (cd : CalendarDate) : Prop :=
  cd.date = dateStr ∧ cd.service_id = s ∧ (cd.exception_type = "1" ∨ cd.exception_type = "2")

instance (dateStr s : String) (cd : CalendarDate) :
    Decidable (relevantException dateStr s cd) := by
  unfold relevantException; infer_instance

/-- All exception rows affecting `s` on the date, in feed order. -/
def relevantExceptions (cds : List CalendarDate) (dateStr s : String) : List CalendarDate :=
  cds.filter (fun cd => decide (relevantException dateStr s cd))

/-- The declarative verdict: the last relevant exception decides membership
(ADDED keeps, REMOVED drops); with no relevant exception the base calendar
decides. -/
def exceptionVerdict (cds : List CalendarDate) (dateStr s : String) (base : Prop) : Prop :=
  match (relevantExceptions cds dateStr s).getLast? with
  | some cd => cd.exception_type = "1"
  | none => base

/-! The tick (`update`, lines 20–122) -/

/-- Lines 26–35: the trips picked for this tick (active service and adjusted
time inside the ±300 s window).  A trip with no stop times would make the JS
crash on `stop_times[0]`; the claims only quantify over feeds whose trips all
have stop times. -/
def selectCurrentTrips (g : GtfsData) (s : SimState) (now : NowInfo) : List Trip :=
  let activeServices := getActiveServices g now.dateStr now.dayOfWeek
  g.trips.filter (fun trip =>
    activeServices.contains trip.service_id &&
    (match trip.stop_times, trip.stop_times.getLast? with
     | st0 :: _, some stLast =>
       decide (st0.departure - 300 ≤ now.secondsFromMidnight - ((s.realTimeOffsets.lookup trip.id).getD 0) ∧
               now.secondsFromMidnight - ((s.realTimeOffsets.lookup trip.id).getD 0) ≤ stLast.arrival + 300)
     | _, _ => false))

/-- Lines 47–119, one iteration: smooth the time, interpolate, persist the
new per-trip state and collect the rendered snapshot. -/
def updateStep (g : GtfsData) (s : SimState) (now : NowInfo)
    (acc : List (String × TripState) × List Snapshot) (trip : Trip) :
    List (String × TripState) × List Snapshot :=
  let offset := (s.realTimeOffsets.lookup trip.id).getD 0
  let targetAdjustedTime := now.secondsFromMidnight - offset
  let finalTime :=
    match acc.1.lookup trip.id with
    | some state => smoothTime state targetAdjustedTime now.timestampMs
    | none => targetAdjustedTime
  let position := calculateTrainPosition g trip finalTime
  let newState : TripState :=
    { lastAdjustedTime := finalTime,
      lastWallClock := now.timestampMs,
      status := match position with | some p => p.status | none => "moving",
      next_stop_arrival := match position with | some p => some p.next_stop_arrival | none => none }
  (mapSet acc.1 trip.id newState,
   match position with
   | some p => acc.2 ++ [{ p with delay := offset }]
   | none => acc.2)

/-- Model of `update(now)`, lines 20–122: select trips, drop smoothing states of trips
that left the active set (lines 38–44; `realTimeOffsets` is never pruned),
then run the per-trip step.  Returns the new stores and the snapshot list. -/
def update (g : GtfsData) (s : SimState) (now : NowInfo) : SimState × List Snapshot :=
  let currentTrips := selectCurrentTrips g s now
  let activeTripIds := currentTrips.map (fun t => t.id)
  let cleanedStates := s.tripStates.filter (fun p => activeTripIds.contains p.1)
  let res := currentTrips.foldl (updateStep g s now) (cleanedStates, [])
  ({ tripStates := res.1, realTimeOffsets := s.realTimeOffsets }, res.2)

/-! Real-Time Reconciler (`syncWithRealTime` / `matchesDestination`,
lines 129–197) -/

/-- Does `sub` occur as a leading run of `s`?  (Helper for JS
`String.includes`.) -/
def startsWithChars : List Char → List Char → Bool
  | [], _ => true
  | _ :: _, [] => false
  | a :: as, b :: bs => a == b && startsWithChars as bs

/-- JS `s.includes(sub)` on the character lists of the two strings. -/
def includesChars (sub : List Char) : List Char → Bool
  | [] => startsWithChars sub []
  | c :: cs => startsWithChars sub (c :: cs) || includesChars sub cs

/-- JS `String.replace` with a one-character string pattern: replace only the
first occurrence. -/
def jsReplaceFirst (c r : Char) : List Char → List Char
  | [] => []
  | x :: xs => if x == c then r :: xs else x :: jsReplaceFirst c r xs

/-- Normalization `x.toLowerCase().replace('/', ' ')` as performed on both destination
names. -/
def normalizeDest (s : String) : List Char :=
  jsReplaceFirst '/' ' ' (s.data.map Char.toLower)

/-- Model of `matchesDestination(apiDest, gtfsDest)`, lines 187–197.  Empty strings are
falsy, matching the `!apiDest || !gtfsDest` guard. -/
def matchesDestination (apiDest gtfsDest : String) : Bool :=
  if apiDest = "" ∨ gtfsDest = "" then false
  else
    let normApi := normalizeDest apiDest
    let normGtfs := normalizeDest gtfsDest
    if includesChars normApi normGtfs || includesChars normGtfs normApi then true
    else if includesChars "basauri".data normApi && includesChars "basauri".data normGtfs then true
    else if includesChars "santurtzi".data normApi && includesChars "santurtzi".data normGtfs then true
    else if includesChars "kabiezes".data normApi && includesChars "kabiezes".data normGtfs then true
    else if includesChars "plentzia".data normApi && includesChars "plentzia".data normGtfs then true
    else false

/-- The value of each decimal digit run, most significant first. -/
def digitsVal (cs : List Char) : ℕ :=
  cs.foldl (fun n c => 10 * n + (c.toNat - 48)) 0

/-- JS `parseInt` restricted to the feed's plain decimal strings: the value of
the maximal leading digit run, `NaN` (`none`) when there is none. -/
def jsParseInt (s : String) : Option Int :=
  let ds := s.data.takeWhile Char.isDigit
  if ds.isEmpty then none else some (digitsVal ds)

/-- JS `entry.Length || null`: the empty string is falsy. -/
def jsOrNull (l : Option String) : Option String :=
  match l with
  | some s => if s = "" then none else some s
  | none => none

/-- The `apiArrivalSeconds` value for one entry (line 156; `isNaN` falls back to 0). -/
def entryApiArrival (now : ℚ) (e : PlatformEntry) : ℚ :=
  now + (((jsParseInt e.Minutes).getD 0 : Int) : ℚ) * 60

/-- The value `diff = Math.abs(apiArrivalSeconds - simArrivalSeconds)` of line 161. -/
def entryDiff (now : ℚ) (st : StopTime) (currentOffset : ℚ) (e : PlatformEntry) : ℚ :=
  abs (entryApiArrival now e - (st.arrival + currentOffset))

/-- The test `diff < minDiff` where `minDiff` starts at `Infinity` (`none`). -/
def ltMinDiff (d : ℚ) (m : Option ℚ) : Bool :=
  match m with
  | none => true
  | some v => decide (d < v)

/-- One iteration of the entry loop of `syncWithRealTime` (lines 152–170),
carrying `(bestMatch, minDiff)`. -/
def findBestStep (stop_times : List StopTime) (nid : String) (currentOffset now : ℚ)
    (destName : String) (acc : Option BestMatch × Option ℚ) (e : PlatformEntry) :
    Option BestMatch × Option ℚ :=
  if matchesDestination e.Destination destName then
    match List.find? (fun st => st.stop_id == nid) stop_times with
    | none => acc
    | some stopTime =>
      let diff := entryDiff now stopTime currentOffset e
      if diff < 900 ∧ ltMinDiff diff acc.2 then
        (some { apiArrival := entryApiArrival now e,
                scheduledArrival := stopTime.arrival,
                length := jsOrNull e.Length }, some diff)
      else acc
  else acc

/-- The `bestMatch` selected for one trip by `syncWithRealTime`, given the
flattened platform entries of the trip's next-stop station. -/
def findBestMatch (platforms : List PlatformEntry) (destName : String)
    (stop_times : List StopTime) (nid : String) (currentOffset now : ℚ) : Option BestMatch :=
  (platforms.foldl (findBestStep stop_times nid currentOffset now destName) (none, none)).1

/-- Lines 171–177 (offset part): overwrite the trip's stored offset with
`apiArrival - scheduledArrival` when a best match exists. -/
def syncOffsets (offsets : List (String × ℚ)) (tripId : String) (bm : Option BestMatch) :
    List (String × ℚ) :=
  match bm with
  | some b => mapSet offsets tripId (b.apiArrival - b.scheduledArrival)
  | none => offsets

/-! Schedule time parser (`parseTime`, gtfs-parser.js lines 253–257) -/

/-- A JS number that is either an actual (rational) value or `NaN`. -/
inductive JsNum where
  | num (q : ℚ)
  | nan
deriving DecidableEq

/-- JS `+` with `NaN` propagation. -/
def jsAdd : JsNum → JsNum → JsNum
  | JsNum.num a, JsNum.num b => JsNum.num (a + b)
  | _, _ => JsNum.nan

/-- JS `*` with `NaN` propagation. -/
def jsMul : JsNum → JsNum → JsNum
  | JsNum.num a, JsNum.num b => JsNum.num (a * b)
  | _, _ => JsNum.nan

/-- JS `Number(s)` on the strings a split time component can be: `''` is 0, a
run of decimal digits is its value, anything else is `NaN`. -/
def jsNumberOfDigits (cs : List Char) : JsNum :=
  if cs.all Char.isDigit then JsNum.num (digitsVal cs) else JsNum.nan

/-- JS `String.split` with a one-character separator: every occurrence splits,
empty pieces are kept, and the empty string yields `[""]`. -/
def splitOnChar (c : Char) : List Char → List (List Char)
  | [] => [[]]
  | x :: xs =>
    if x == c then [] :: splitOnChar c xs
    else
      match splitOnChar c xs with
      | [] => [[x]]
      | h :: t => (x :: h) :: t

/-- Indexing `parts[i]`: out of range is `undefined`, which behaves as `NaN` in the
arithmetic it is used in. -/
def jsGet (l : List JsNum) (i : ℕ) : JsNum :=
  (l.get? i).getD JsNum.nan

/-- Model of `parseTime(timeStr)` of `gtfs-parser.js`: empty (falsy) input short-cuts
to 0; otherwise split on `':'`, convert each part with `Number`, and compute
`parts[0]*3600 + parts[1]*60 + parts[2]`. -/
def parseTime (timeStr : String) : JsNum :=
  if timeStr = "" then JsNum.num 0
  else
    let parts := (splitOnChar ':' timeStr.data).map jsNumberOfDigits
    jsAdd (jsAdd (jsMul (jsGet parts 0) (JsNum.num 3600)) (jsMul (jsGet parts 1) (JsNum.num 60)))
      (jsGet parts 2)

/-! Stop-time ordering invariant (spec §3) and state-machine conditions -/

/-- The §3 invariant on a trip's stop times: each stop's arrival precedes its
departure, and each departure precedes the next stop's arrival. -/
def StopTimesOrdered : List StopTime → Prop
  | [] => True
  | [a] => a.arrival ≤ a.departure
  | a :: b :: rest =>
    a.arrival ≤ a.departure ∧ a.departure ≤ b.arrival ∧ StopTimesOrdered (b :: rest)

instance instDecidableStopTimesOrdered : (l : List StopTime) → Decidable (StopTimesOrdered l)
  | [] => Decidable.isTrue trivial
  | [a] => inferInstanceAs (Decidable (a.arrival ≤ a.departure))
  | a :: b :: rest =>
    haveI := instDecidableStopTimesOrdered (b :: rest)
    inferInstanceAs (Decidable (_ ∧ _ ∧ _))

/-- The `DWELLING(i)` condition restricted to the indices the scan loop visits: some
consecutive pair starts a dwell window containing `t`. -/
def dwellCondition (l : List StopTime) (t : ℚ) : Prop :=
  ∃ i a b, l.get? i = some a ∧ l.get? (i + 1) = some b ∧ a.arrival ≤ t ∧ t < a.departure

/-- The `MOVING(i, i+1)` condition: some consecutive pair brackets `t` between departure and
next arrival. -/
def movingCondition (l : List StopTime) (t : ℚ) : Prop :=
  ∃ i a b, l.get? i = some a ∧ l.get? (i + 1) = some b ∧ a.departure ≤ t ∧ t < b.arrival

/-! Claim C1 -/

/-- Example data shared by C1's theorems: a two-stop trip whose final stop
has a genuine dwell window (arrival 20, departure 30). -/
def exGtfsC1 : GtfsData where
  stopsById := fun sid =>
    if sid = "A" then { id := "A", name := "Stop A", lat := 1, lon := 2 }
    else if sid = "B" then { id := "B", name := "Stop B", lat := 3, lon := 4 }
    else { id := "X", name := "X", lat := 0, lon := 0 }
  shapesById := fun _ => none
  trips := []
  calendar := []
  calendar_dates := []

/-- The C1 example trip. -/
def exTripC1 : Trip where
  id := "T1"
  route_id := "L1"
  service_id := "S1"
  shape_id := "SH1"
  service_number := ""
  stop_times :=
    [ { stop_id := "A", arrival := 0, departure := 10, shape_dist := none },
      { stop_id := "B", arrival := 20, departure := 30, shape_dist := none } ]

/-! Claim C5 -/

instance (g : GtfsData) (dateStr : String) (dayOfWeek : Nat) (s : String) :
    Decidable (baseCalendarActive g dateStr dayOfWeek s) := by
  unfold baseCalendarActive; infer_instance

instance (cds : List CalendarDate) (dateStr s : String) (base : Prop) [Decidable base] :
    Decidable (exceptionVerdict cds dateStr s base) := by
  unfold exceptionVerdict
  cases (relevantExceptions cds dateStr s).getLast? with
  | none => exact inferInstanceAs (Decidable base)
  | some cd => exact inferInstanceAs (Decidable (cd.exception_type = "1"))

/-- Example feed for C5: a Monday service `S1` (removed by exception on
2026-01-05) and an extra service `S2` added by exception that day. -/
def exCalGtfs : GtfsData where
  stopsById := fun _ => { id := "X", name := "X", lat := 0, lon := 0 }
  shapesById := fun _ => none
  trips := []
  calendar :=
    [ { service_id := "S1", sunday := "0", monday := "1", tuesday := "1",
        wednesday := "1", thursday := "1", friday := "1", saturday := "0",
        start_date := "20260101", end_date := "20261231" } ]
  calendar_dates :=
    [ { service_id := "S1", date := "20260105", exception_type := "2" },
      { service_id := "S2", date := "20260105", exception_type := "1" } ]

/-- Shapeless two-stop feed for C7's midpoint example. -/
def exGtfsC7 : GtfsData where
  stopsById := fun sid =>
    if sid = "A" then { id := "A", name := "Stop A", lat := 0, lon := 0 }
    else if sid = "B" then { id := "B", name := "Stop B", lat := 10, lon := 20 }
    else { id := "X", name := "X", lat := 0, lon := 0 }
  shapesById := fun _ => none
  trips := []
  calendar := []
  calendar_dates := []

/-- C7's example trip: two stops scheduled 100 s apart, no usable shape. -/
def exTripC7 : Trip where
  id := "T7"
  route_id := "L1"
  service_id := "S"
  shape_id := "SH"
  service_number := ""
  stop_times :=
    [ { stop_id := "A", arrival := 0, departure := 0, shape_dist := none },
      { stop_id := "B", arrival := 100, departure := 100, shape_dist := none } ]

/-- C10's shape: only 10 m of geometry, far less than the stop distances. -/
def exShapeC10 : Shape where
  points :=
    [ { lat := 0, lon := 0, dist := 0 },
      { lat := 1, lon := 1, dist := 10 } ]

/-- C10's feed: the trip has a shape, but the stop distances (0 and 1000)
overshoot the geometry. -/
def exGtfsC10 : GtfsData where
  stopsById := fun sid =>
    if sid = "A" then { id := "A", name := "Stop A", lat := 0, lon := 0 }
    else if sid = "B" then { id := "B", name := "Stop B", lat := 10, lon := 20 }
    else { id := "X", name := "X", lat := 0, lon := 0 }
  shapesById := fun sid => if sid = "SH10" then some exShapeC10 else none
  trips := []
  calendar := []
  calendar_dates := []

/-- C10's trip: both endpoints have known distances 0 and 1000. -/
def exTripC10 : Trip where
  id := "T10"
  route_id := "L1"
  service_id := "S"
  shape_id := "SH10"
  service_number := ""
  stop_times :=
    [ { stop_id := "A", arrival := 0, departure := 0, shape_dist := some 0 },
      { stop_id := "B", arrival := 100, departure := 100, shape_dist := some 1000 } ]

/-! Claim C2 -/

/-- Loop invariant of the entry scan of `syncWithRealTime`: either nothing
was kept and every matching entry seen so far had `diff ≥ 900`, or the kept
`(bestMatch, minDiff)` pair comes from a matching entry with `diff < 900`
that is minimal among all matching entries seen so far. -/
def FbInv (destName : String) (st : StopTime) (off now : ℚ)
    (processed : List PlatformEntry) (acc : Option BestMatch × Option ℚ) : Prop :=
  match acc with
  | (none, none) =>
    ∀ e ∈ processed, matchesDestination e.Destination destName = true →
      900 ≤ entryDiff now st off e
  | (some bm, some d) =>
    d < 900 ∧ bm.scheduledArrival = st.arrival ∧
      (∃ e ∈ processed, matchesDestination e.Destination destName = true ∧
        entryDiff now st off e = d ∧ bm.apiArrival = entryApiArrival now e) ∧
      (∀ e ∈ processed, matchesDestination e.Destination destName = true →
        d ≤ entryDiff now st off e)
  | _ => False

/-- Empty feed for C6: no trips can be active. -/
def exGtfsC6 : GtfsData where
  stopsById := fun _ => { id := "X", name := "X", lat := 0, lon := 0 }
  shapesById := fun _ => none
  trips := []
  calendar := []
  calendar_dates := []

/-- A simulator state holding a smoothing state and a 60 s offset for a trip
`t1` that is not in the active set. -/
def exStateC6 : SimState where
  tripStates :=
    [("t1", { lastAdjustedTime := 0, lastWallClock := 0, status := "moving",
              next_stop_arrival := none })]
  realTimeOffsets := [("t1", 60)]

/-- A tick instant for C6. -/
def exNowC6 : NowInfo where
  secondsFromMidnight := 0
  dateStr := "20260101"
  dayOfWeek := 1
  timestampMs := 0

/-! Theorems -/

/-! Helper lemmas about the ordering invariant and the scan loop -/

theorem stopTimesOrdered_tail {x : StopTime} {xs : List StopTime}
    (h : StopTimesOrdered (x :: xs)) : StopTimesOrdered xs := by
  cases xs with
  | nil => trivial
  | cons y rest => exact h.2.2

theorem stopTimesOrdered_arr_le_dep {x : StopTime} {xs : List StopTime}
    (h : StopTimesOrdered (x :: xs)) : x.arrival ≤ x.departure := by
  cases xs with
  | nil => exact h
  | cons y rest => exact h.1

/-- In an ordered stop list, the head's departure precedes every later
arrival. -/
theorem stopTimesOrdered_dep_le {x : StopTime} {xs : List StopTime}
    (h : StopTimesOrdered (x :: xs)) {y : StopTime} (hy : y ∈ xs) :
    x.departure ≤ y.arrival := by
  induction xs generalizing x with
  | nil => cases hy
  | cons z zs ih =>
    rcases List.mem_cons.mp hy with rfl | hy'
    · exact h.2.1
    · exact le_trans h.2.1 (le_trans (stopTimesOrdered_arr_le_dep h.2.2) (ih h.2.2 hy'))

/-- Every member of an ordered stop list has `arrival ≤ departure`. -/
theorem stopTimesOrdered_mem_arr_le_dep {l : List StopTime}
    (h : StopTimesOrdered l) {y : StopTime} (hy : y ∈ l) : y.arrival ≤ y.departure := by
  induction l with
  | nil => cases hy
  | cons x xs ih =>
    rcases List.mem_cons.mp hy with rfl | hy'
    · exact stopTimesOrdered_arr_le_dep h
    · exact ih (stopTimesOrdered_tail h) hy'

/-- Soundness: a `dwell` scan result comes from a consecutive pair whose
dwell window contains `t`. -/
theorem scanStops_sound_dwell {t : ℚ} :
    ∀ {l : List StopTime} {a b : StopTime}, scanStops t l = ScanResult.dwell a b →
      ∃ i, l.get? i = some a ∧ l.get? (i + 1) = some b ∧ a.arrival ≤ t ∧ t < a.departure := by
  intro l
  induction l with
  | nil => intro a b h; simp [scanStops] at h
  | cons x xs ih =>
    intro a b h
    cases xs with
    | nil => simp [scanStops] at h
    | cons y rest =>
      rw [scanStops] at h
      split_ifs at h with h1 h2
      · injection h with hx hy
        subst hx; subst hy
        exact ⟨0, rfl, rfl, h2.1, h2.2⟩
      · obtain ⟨i, hi1, hi2, hw1, hw2⟩ := ih h
        exact ⟨i + 1, by simpa using hi1, by simpa using hi2, hw1, hw2⟩

/-- Soundness: a `move` scan result comes from a consecutive pair whose
travel window contains `t`. -/
theorem scanStops_sound_move {t : ℚ} :
    ∀ {l : List StopTime} {a b : StopTime}, scanStops t l = ScanResult.move a b →
      ∃ i, l.get? i = some a ∧ l.get? (i + 1) = some b ∧ a.departure ≤ t ∧ t < b.arrival := by
  intro l
  induction l with
  | nil => intro a b h; simp [scanStops] at h
  | cons x xs ih =>
    intro a b h
    cases xs with
    | nil => simp [scanStops] at h
    | cons y rest =>
      rw [scanStops] at h
      split_ifs at h with h1 h2
      · injection h with hx hy
        subst hx; subst hy
        exact ⟨0, rfl, rfl, h1.1, h1.2⟩
      · obtain ⟨i, hi1, hi2, hw1, hw2⟩ := ih h
        exact ⟨i + 1, by simpa using hi1, by simpa using hi2, hw1, hw2⟩

/-- Completeness: under the ordering invariant, a dwell window at a visited
pair forces the scan to return a `dwell` result. -/
theorem scanStops_complete_dwell {t : ℚ} :
    ∀ {l : List StopTime}, StopTimesOrdered l →
      ∀ {i : ℕ} {a b : StopTime}, l.get? i = some a → l.get? (i + 1) = some b →
        a.arrival ≤ t → t < a.departure →
        ∃ a' b', scanStops t l = ScanResult.dwell a' b' := by
  intro l
  induction l with
  | nil => intro _ i a b ha _ _ _; simp at ha
  | cons x xs ih =>
    intro hord i a b ha hb h1 h2
    cases xs with
    | nil =>
      rcases i with _ | j
      · simp at hb
      · simp at ha
    | cons y rest =>
      rcases i with _ | j
      · -- window at the head pair: the moving check cannot fire
        simp only [List.get?_cons_zero, Option.some.injEq] at ha
        subst ha
        rw [scanStops]
        have hmov : ¬(x.departure ≤ t ∧ t < y.arrival) := fun hc => absurd h2 (not_lt.mpr hc.1)
        rw [if_neg hmov, if_pos ⟨h1, h2⟩]
        exact ⟨x, y, rfl⟩
      · -- window strictly inside the tail
        simp only [List.get?_cons_succ] at ha hb
        have hamem : a ∈ y :: rest := List.get?_mem ha
        have hya : y.arrival ≤ a.arrival := by
          rcases List.mem_cons.mp hamem with rfl | hmem
          · exact le_refl _
          · exact le_trans (stopTimesOrdered_arr_le_dep (stopTimesOrdered_tail hord))
              (stopTimesOrdered_dep_le (stopTimesOrdered_tail hord) hmem)
        have hta : y.arrival ≤ t := le_trans hya h1
        have hxd : x.departure ≤ t := le_trans (hord.2.1) hta
        rw [scanStops]
        have hmov : ¬(x.departure ≤ t ∧ t < y.arrival) := fun hc => absurd hta (not_le.mpr hc.2)
        have hdw : ¬(x.arrival ≤ t ∧ t < x.departure) := fun hc => absurd hxd (not_le.mpr hc.2)
        rw [if_neg hmov, if_neg hdw]
        exact ih (stopTimesOrdered_tail hord) ha hb h1 h2

/-- Completeness: under the ordering invariant, a travel window at a visited
pair forces the scan to return a `move` result. -/
theorem scanStops_complete_move {t : ℚ} :
    ∀ {l : List StopTime}, StopTimesOrdered l →
      ∀ {i : ℕ} {a b : StopTime}, l.get? i = some a → l.get? (i + 1) = some b →
        a.departure ≤ t → t < b.arrival →
        ∃ a' b', scanStops t l = ScanResult.move a' b' := by
  intro l
  induction l with
  | nil => intro _ i a b ha _ _ _; simp at ha
  | cons x xs ih =>
    intro hord i a b ha hb h1 h2
    cases xs with
    | nil =>
      rcases i with _ | j
      · simp at hb
      · simp at ha
    | cons y rest =>
      rcases i with _ | j
      · simp only [List.get?_cons_zero, Option.some.injEq] at ha
        simp only [List.get?_cons_succ, List.get?_cons_zero, Option.some.injEq] at hb
        subst ha; subst hb
        rw [scanStops, if_pos ⟨h1, h2⟩]
        exact ⟨x, y, rfl⟩
      · simp only [List.get?_cons_succ] at ha hb
        have hamem : a ∈ y :: rest := List.get?_mem ha
        have hta : y.arrival ≤ t := by
          rcases List.mem_cons.mp hamem with rfl | hmem
          · exact le_trans (stopTimesOrdered_arr_le_dep (stopTimesOrdered_tail hord)) h1
          · have h3 := stopTimesOrdered_tail hord
            have h4 : y.departure ≤ a.arrival := stopTimesOrdered_dep_le h3 hmem
            have h5 : a.arrival ≤ a.departure := stopTimesOrdered_mem_arr_le_dep h3 hamem
            exact le_trans (stopTimesOrdered_arr_le_dep h3) (le_trans h4 (le_trans h5 h1))
        have hxd : x.departure ≤ t := le_trans (hord.2.1) hta
        rw [scanStops]
        have hmov : ¬(x.departure ≤ t ∧ t < y.arrival) := fun hc => absurd hta (not_le.mpr hc.2)
        have hdw : ¬(x.arrival ≤ t ∧ t < x.departure) := fun hc => absurd hxd (not_le.mpr hc.2)
        rw [if_neg hmov, if_neg hdw]
        exact ih (stopTimesOrdered_tail hord) ha hb h1 h2

/-- Any snapshot produced inside `getPointAtDistance` carries status
`'moving'`. -/
theorem gpadLoop_status {d : ℚ} {trip : Trip} :
    ∀ {ps : List ShapePoint} {pos : Snapshot}, gpadLoop d trip ps = some pos →
      pos.status = "moving" := by
  intro ps
  induction ps with
  | nil => intro pos h; simp [gpadLoop] at h
  | cons p qs ih =>
    intro pos h
    cases qs with
    | nil => simp [gpadLoop] at h
    | cons q rest =>
      rw [gpadLoop] at h
      split_ifs at h with h1
      · injection h with h2
        subst h2
        rfl
      · exact ih h

/-- A non-`none` scan result needs a nonempty stop list (so `getLast?` is
defined in the branches that use it). -/
theorem exists_getLast?_of_get? {l : List StopTime} {i : ℕ} {a : StopTime}
    (h : l.get? i = some a) : ∃ lastStop, l.getLast? = some lastStop := by
  have hne : l ≠ [] := List.ne_nil_of_mem (List.get?_mem h)
  obtain ⟨x, hx⟩ := Option.isSome_iff_exists.mp (List.getLast?_isSome.mpr hne)
  exact ⟨x, hx⟩

/-- Claim C1, amended: Under the stop-time ordering invariant,
`calculateTrainPosition` returns a `'dwelling'` snapshot carrying the stop's
own coordinates exactly when some *non-final* stop's dwell window
`arrival ≤ t < departure` contains `t` (a window at the final stop is never
scanned), returns a `'moving'` snapshot exactly when some consecutive pair
satisfies `departure ≤ t < next arrival`, returns `none` whenever neither
condition holds, and the two conditions are mutually exclusive. -/
theorem calculateTrainPosition_state_machine (g : GtfsData) (trip : Trip) (t : ℚ)
    (hord : StopTimesOrdered trip.stop_times) :
    (dwellCondition trip.stop_times t →
      ∃ snap i a b, calculateTrainPosition g trip t = some snap ∧
        trip.stop_times.get? i = some a ∧ trip.stop_times.get? (i + 1) = some b ∧
        a.arrival ≤ t ∧ t < a.departure ∧
        snap.status = "dwelling" ∧
        snap.lat = (g.stopsById a.stop_id).lat ∧ snap.lon = (g.stopsById a.stop_id).lon)
    ∧ (movingCondition trip.stop_times t →
      ∃ snap, calculateTrainPosition g trip t = some snap ∧ snap.status = "moving")
    ∧ (¬ dwellCondition trip.stop_times t → ¬ movingCondition trip.stop_times t →
      calculateTrainPosition g trip t = none)
    ∧ ¬ (dwellCondition trip.stop_times t ∧ movingCondition trip.stop_times t) := by
  refine ⟨?_, ?_, ?_, ?_⟩
  · rintro ⟨i, a, b, ha, hb, h1, h2⟩
    obtain ⟨a', b', hscan⟩ := scanStops_complete_dwell hord ha hb h1 h2
    obtain ⟨j, hj1, hj2, hw1, hw2⟩ := scanStops_sound_dwell hscan
    obtain ⟨lastStop, hlast⟩ := exists_getLast?_of_get? hj1
    refine ⟨{ trip_id := trip.id, route_id := trip.route_id,
              service_number := trip.service_number,
              lat := (g.stopsById a'.stop_id).lat, lon := (g.stopsById a'.stop_id).lon,
              status := "dwelling",
              stop_name := some (g.stopsById a'.stop_id).name,
              next_stop_id := b'.stop_id,
              next_stop_name := (g.stopsById b'.stop_id).name,
              next_stop_arrival := b'.arrival,
              destination_name := (g.stopsById lastStop.stop_id).name,
              destination_arrival := lastStop.arrival },
            j, a', b', ?_, hj1, hj2, hw1, hw2, rfl, rfl, rfl⟩
    simp only [calculateTrainPosition, hscan, hlast]
  · rintro ⟨i, a, b, ha, hb, h1, h2⟩
    obtain ⟨a', b', hscan⟩ := scanStops_complete_move hord ha hb h1 h2
    obtain ⟨j, hj1, hj2, hw1, hw2⟩ := scanStops_sound_move hscan
    obtain ⟨lastStop, hlast⟩ := exists_getLast?_of_get? hj1
    simp only [calculateTrainPosition, hscan, hlast]
    cases hsh : g.shapesById trip.shape_id with
    | none => exact ⟨_, rfl, rfl⟩
    | some shape =>
      cases hda : a'.shape_dist with
      | none => exact ⟨_, rfl, rfl⟩
      | some distA =>
        cases hdb : b'.shape_dist with
        | none => exact ⟨_, rfl, rfl⟩
        | some distB =>
          cases hgp : getPointAtDistance shape (currentDistance a' b' t distA distB) trip with
          | none => simp only [hgp]; exact ⟨_, rfl, rfl⟩
          | some position =>
            simp only [hgp]
            have hst : position.status = "moving" := gpadLoop_status hgp
            exact ⟨_, rfl, hst⟩
  · intro hnd hnm
    cases hscan : scanStops t trip.stop_times with
    | none => simp only [calculateTrainPosition, hscan]
    | dwell a b =>
      obtain ⟨i, hi1, hi2, hw1, hw2⟩ := scanStops_sound_dwell hscan
      exact absurd ⟨i, a, b, hi1, hi2, hw1, hw2⟩ hnd
    | move a b =>
      obtain ⟨i, hi1, hi2, hw1, hw2⟩ := scanStops_sound_move hscan
      exact absurd ⟨i, a, b, hi1, hi2, hw1, hw2⟩ hnm
  · rintro ⟨⟨i, a, b, ha, hb, h1, h2⟩, ⟨i', a', b', ha', hb', h1', h2'⟩⟩
    obtain ⟨c, d, e1⟩ := scanStops_complete_dwell hord ha hb h1 h2
    obtain ⟨c', d', e2⟩ := scanStops_complete_move hord ha' hb' h1' h2'
    exact absurd (e1.symm.trans e2) (by simp)

/-- Claim C1 counterexample: The claim as stated quantifies the dwell window
over *every* index: on `exTripC1` (which satisfies the ordering invariant)
time 25 lies in the final stop's dwell window, yet the interpolator returns
no snapshot, because the scan never visits the final stop. -/
theorem calculateTrainPosition_last_dwell_counterexample :
    StopTimesOrdered exTripC1.stop_times ∧
    exTripC1.stop_times.get? 1 =
      some { stop_id := "B", arrival := 20, departure := 30, shape_dist := none } ∧
    (20 : ℚ) ≤ 25 ∧ (25 : ℚ) < 30 ∧
    calculateTrainPosition exGtfsC1 exTripC1 25 = none := by
  refine ⟨by decide, rfl, by norm_num, by norm_num, rfl⟩

/-- Claim C1 witness: The amended theorem applied to `exTripC1` at `t = 5`
(dwell window of the first stop). -/
theorem calculateTrainPosition_state_machine_witness :
    ∃ snap, calculateTrainPosition exGtfsC1 exTripC1 5 = some snap ∧
      snap.status = "dwelling" ∧ snap.lat = 1 ∧ snap.lon = 2 := by
  have h := (calculateTrainPosition_state_machine exGtfsC1 exTripC1 5 (by decide)).1
    ⟨0, _, _, rfl, rfl, by norm_num, by norm_num⟩
  obtain ⟨snap, i, a, b, hc, ha, _, hw1, hw2, hs, hlat, hlon⟩ := h
  have haA : a = { stop_id := "A", arrival := 0, departure := 10, shape_dist := none } := by
    have hmem := List.get?_mem ha
    rcases List.mem_cons.mp hmem with rfl | hmem'
    · rfl
    · rcases List.mem_cons.mp hmem' with rfl | hmem''
      · exfalso
        norm_num at hw1 hw2
      · cases hmem''
  refine ⟨snap, hc, hs, ?_, ?_⟩
  · rw [hlat, haA]
    decide
  · rw [hlon, haA]
    decide

/-! Claims C3 and C4 -/

/-- The sequential two-test clamp of lines 78–82 equals mathematical clamping
when the interval is nonempty. -/
theorem clamp_eq_max_min (r mn mx : ℚ) (h : mn ≤ mx) :
    (if r < mn then mn else if mx < r then mx else r) = max mn (min r mx) := by
  rcases lt_or_le r mn with h1 | h1
  · rw [if_pos h1, min_eq_left (le_trans h1.le h), max_eq_left h1.le]
  · rw [if_neg (not_lt.mpr h1)]
    rcases lt_or_le mx r with h2 | h2
    · rw [if_pos h2, min_eq_right h2.le, max_eq_right h]
    · rw [if_neg (not_lt.mpr h2), min_eq_left h2, max_eq_right h1]

/-- Claim C3: On a tick with smoothing state and non-decreasing wall clock, the
pre-cap advance is `rawDiff` clamped into
`[elapsedReal * minSpeed, elapsedReal * maxSpeed]`, with `minSpeed = 0` for a
dwelling trip and `1/2` otherwise, and `maxSpeed = 3`. -/
theorem clampedAdvance_spec (state : TripState) (targetAdjustedTime currentTimestamp : ℚ)
    (hts : state.lastWallClock ≤ currentTimestamp)
    (hst : state.status = "dwelling" ∨ state.status = "moving") :
    clampedAdvance state targetAdjustedTime currentTimestamp =
      max (((currentTimestamp - state.lastWallClock) / 1000) *
             (if state.status = "dwelling" then 0 else 1/2))
          (min (targetAdjustedTime - state.lastAdjustedTime)
             (((currentTimestamp - state.lastWallClock) / 1000) * 3)) := by
  have he : (0:ℚ) ≤ (currentTimestamp - state.lastWallClock) / 1000 :=
    div_nonneg (sub_nonneg.mpr hts) (by norm_num)
  rcases hst with h | h
  · have hms : (if state.status = "moving" then (1/2 : ℚ) else 0) = 0 := by
      rw [h]; simp
    have hds : (if state.status = "dwelling" then (0 : ℚ) else 1/2) = 0 := by
      rw [h]; simp
    simp only [clampedAdvance, hms, hds]
    exact clamp_eq_max_min _ _ _ (by nlinarith)
  · have hms : (if state.status = "moving" then (1/2 : ℚ) else 0) = 1/2 := by
      rw [h]; simp
    have hds : (if state.status = "dwelling" then (0 : ℚ) else 1/2) = 1/2 := by
      rw [h]; simp
    simp only [clampedAdvance, hms, hds]
    exact clamp_eq_max_min _ _ _ (by nlinarith)

/-- Claim C3 witness: A moving trip with `elapsedReal = 10 s` and
`rawDiff = 2 s` is forced up to `validAdvance = 5 s`. -/
theorem clampedAdvance_spec_witness :
    clampedAdvance { lastAdjustedTime := 100, lastWallClock := 0,
                     status := "moving", next_stop_arrival := none } 102 10000 = 5 := by
  have h := clampedAdvance_spec
    { lastAdjustedTime := 100, lastWallClock := 0, status := "moving", next_stop_arrival := none }
    102 10000 (by norm_num) (Or.inr rfl)
  rw [h]
  norm_num
  simp
  norm_num

/-- The clamped advance is never negative when the wall clock moved
forward. -/
theorem clampedAdvance_nonneg (state : TripState) (targetAdjustedTime currentTimestamp : ℚ)
    (hts : state.lastWallClock ≤ currentTimestamp) :
    0 ≤ clampedAdvance state targetAdjustedTime currentTimestamp := by
  have he : (0:ℚ) ≤ (currentTimestamp - state.lastWallClock) / 1000 :=
    div_nonneg (sub_nonneg.mpr hts) (by norm_num)
  simp only [clampedAdvance]
  split_ifs <;> nlinarith

/-- Claim C4: Whenever a smoothing state exists and the wall clock did not run
backwards, the `finalTime` fed to the interpolator is at least the
`lastAdjustedTime` persisted on the previous tick — also when the
next-stop-arrival cap fires. -/
theorem smoothTime_monotone (state : TripState) (targetAdjustedTime currentTimestamp : ℚ)
    (hts : state.lastWallClock ≤ currentTimestamp) :
    state.lastAdjustedTime ≤ smoothTime state targetAdjustedTime currentTimestamp := by
  have h0 := clampedAdvance_nonneg state targetAdjustedTime currentTimestamp hts
  have key : 0 ≤ smoothedAdvance state targetAdjustedTime currentTimestamp := by
    unfold smoothedAdvance
    cases hn : state.next_stop_arrival with
    | none => simpa using h0
    | some maxTime =>
      simp only []
      split_ifs with hc1 hc2 hc3
      · exact hc3
      · exact h0
      · exact h0
      · exact h0
  unfold smoothTime
  linarith

/-- Claim C4 witness: A moving state capped at `next_stop_arrival = 103` still
never moves `finalTime` backwards. -/
theorem smoothTime_monotone_witness :
    (100 : ℚ) ≤ smoothTime { lastAdjustedTime := 100, lastWallClock := 0,
                             status := "moving", next_stop_arrival := some 103 } 200 10000 :=
  smoothTime_monotone
    { lastAdjustedTime := 100, lastWallClock := 0, status := "moving",
      next_stop_arrival := some 103 } 200 10000 (by norm_num)

theorem mem_addService {acc : List String} {x s : String} :
    s ∈ addService acc x ↔ s ∈ acc ∨ s = x := by
  unfold addService
  split_ifs with h
  · constructor
    · exact Or.inl
    · rintro (h1 | rfl)
      · exact h1
      · exact h
  · simp [List.mem_append]

theorem mem_removeService {acc : List String} {x s : String} :
    s ∈ removeService acc x ↔ s ∈ acc ∧ s ≠ x := by
  unfold removeService
  simp [List.mem_filter]

theorem exceptionVerdict_eq_of_getLast {cds : List CalendarDate} {dateStr s : String}
    {base : Prop} {cd : CalendarDate}
    (h : (relevantExceptions cds dateStr s).getLast? = some cd) :
    exceptionVerdict cds dateStr s base = (cd.exception_type = "1") := by
  unfold exceptionVerdict
  rw [h]

theorem exceptionVerdict_eq_base {cds : List CalendarDate} {dateStr s : String} {base : Prop}
    (h : (relevantExceptions cds dateStr s).getLast? = none) :
    exceptionVerdict cds dateStr s base = base := by
  unfold exceptionVerdict
  rw [h]

/-- Membership after the base-calendar pass. -/
theorem mem_baseFold (dateStr : String) (dayOfWeek : Nat) :
    ∀ (l : List CalendarEntry) (acc : List String) (s : String),
      s ∈ l.foldl (baseStep dateStr dayOfWeek) acc ↔
        s ∈ acc ∨ ∃ cal ∈ l, calendarApplies cal dateStr dayOfWeek ∧ cal.service_id = s := by
  intro l
  induction l with
  | nil => intro acc s; simp
  | cons c cs ih =>
    intro acc s
    simp only [List.foldl_cons]
    rw [ih]
    by_cases hc : calendarApplies c dateStr dayOfWeek
    · rw [baseStep, if_pos hc, mem_addService]
      constructor
      · rintro ((h1 | rfl) | ⟨cal, hm, hca, hid⟩)
        · exact Or.inl h1
        · exact Or.inr ⟨c, List.mem_cons_self c cs, hc, rfl⟩
        · exact Or.inr ⟨cal, List.mem_cons_of_mem _ hm, hca, hid⟩
      · rintro (h1 | ⟨cal, hm, hca, hid⟩)
        · exact Or.inl (Or.inl h1)
        · rcases List.mem_cons.mp hm with rfl | hm'
          · exact Or.inl (Or.inr hid.symm)
          · exact Or.inr ⟨cal, hm', hca, hid⟩
    · rw [baseStep, if_neg hc]
      constructor
      · rintro (h1 | ⟨cal, hm, hca, hid⟩)
        · exact Or.inl h1
        · exact Or.inr ⟨cal, List.mem_cons_of_mem _ hm, hca, hid⟩
      · rintro (h1 | ⟨cal, hm, hca, hid⟩)
        · exact Or.inl h1
        · rcases List.mem_cons.mp hm with rfl | hm'
          · exact absurd hca hc
          · exact Or.inr ⟨cal, hm', hca, hid⟩

/-- Membership after the exception pass: the last relevant exception wins. -/
theorem mem_excFold (dateStr s : String) :
    ∀ (l : List CalendarDate) (acc : List String),
      s ∈ l.foldl (excStep dateStr) acc ↔ exceptionVerdict l dateStr s (s ∈ acc) := by
  intro l
  induction l with
  | nil =>
    intro acc
    rw [exceptionVerdict_eq_base (by simp [relevantExceptions])]
    simp
  | cons c cs ih =>
    intro acc
    simp only [List.foldl_cons]
    rw [ih]
    by_cases hrel : relevantException dateStr s c
    · have hf : relevantExceptions (c :: cs) dateStr s =
          c :: relevantExceptions cs dateStr s := by
        simp [relevantExceptions, List.filter_cons, hrel]
      cases hcs : (relevantExceptions cs dateStr s).getLast? with
      | none =>
        rw [exceptionVerdict_eq_base hcs]
        have hnil : relevantExceptions cs dateStr s = [] := by
          cases he : relevantExceptions cs dateStr s with
          | nil => rfl
          | cons z zs => rw [he] at hcs; exact absurd hcs (by simp)
        have hsome : (relevantExceptions (c :: cs) dateStr s).getLast? = some c := by
          rw [hf, hnil]
          rfl
        rw [exceptionVerdict_eq_of_getLast hsome]
        obtain ⟨hd, hsid, htype⟩ := hrel
        unfold excStep
        rw [if_pos hd]
        rcases htype with h1 | h2
        · rw [if_pos h1, mem_addService]
          constructor
          · intro _; exact h1
          · intro _; exact Or.inr hsid.symm
        · have h1 : c.exception_type ≠ "1" := by rw [h2]; decide
          rw [if_neg h1, if_pos h2, mem_removeService]
          constructor
          · rintro ⟨_, hne⟩; exact absurd hsid.symm hne
          · intro hcontra; exact absurd hcontra h1
      | some z =>
        rw [exceptionVerdict_eq_of_getLast hcs]
        have hsome : (relevantExceptions (c :: cs) dateStr s).getLast? = some z := by
          rw [hf]
          cases he : relevantExceptions cs dateStr s with
          | nil => rw [he] at hcs; exact absurd hcs (by simp)
          | cons y ys =>
            rw [List.getLast?_cons_cons]
            rw [he] at hcs
            exact hcs
        rw [exceptionVerdict_eq_of_getLast hsome]
    · have hf : relevantExceptions (c :: cs) dateStr s = relevantExceptions cs dateStr s := by
        simp [relevantExceptions, List.filter_cons, hrel]
      have hstep : (s ∈ excStep dateStr acc c) ↔ s ∈ acc := by
        unfold excStep
        by_cases hd : c.date = dateStr
        · rw [if_pos hd]
          by_cases h1 : c.exception_type = "1"
          · rw [if_pos h1, mem_addService]
            constructor
            · rintro (h | rfl)
              · exact h
              · exact absurd ⟨hd, rfl, Or.inl h1⟩ hrel
            · exact Or.inl
          · rw [if_neg h1]
            by_cases h2 : c.exception_type = "2"
            · rw [if_pos h2, mem_removeService]
              constructor
              · exact And.left
              · intro h
                exact ⟨h, fun heq => hrel ⟨hd, heq.symm, Or.inr h2⟩⟩
            · rw [if_neg h2]
        · rw [if_neg hd]
      cases hg : (relevantExceptions cs dateStr s).getLast? with
      | none =>
        rw [exceptionVerdict_eq_base hg,
          exceptionVerdict_eq_base (hf ▸ hg : (relevantExceptions (c :: cs) dateStr s).getLast? = none)]
        exact hstep
      | some z =>
        rw [exceptionVerdict_eq_of_getLast hg,
          exceptionVerdict_eq_of_getLast
            (hf ▸ hg : (relevantExceptions (c :: cs) dateStr s).getLast? = some z)]

/-- Claim C5: `getActiveServices` returns exactly the claim's set: a service is
active iff its last calendar exception on that exact date is ADDED, or there
is no relevant exception and some base calendar row (day flag set, date in
the inclusive range) lists it — exceptions take precedence over the base
calendar. -/
theorem getActiveServices_spec (g : GtfsData) (dateStr : String) (dayOfWeek : Nat) (s : String) :
    s ∈ getActiveServices g dateStr dayOfWeek ↔
      exceptionVerdict g.calendar_dates dateStr s (baseCalendarActive g dateStr dayOfWeek s) := by
  unfold getActiveServices
  rw [mem_excFold]
  have hb : (s ∈ g.calendar.foldl (baseStep dateStr dayOfWeek) []) ↔
      baseCalendarActive g dateStr dayOfWeek s := by
    rw [mem_baseFold]
    simp [baseCalendarActive]
  cases hg : (relevantExceptions g.calendar_dates dateStr s).getLast? with
  | none => rw [exceptionVerdict_eq_base hg, exceptionVerdict_eq_base hg]; exact hb
  | some cd => rw [exceptionVerdict_eq_of_getLast hg, exceptionVerdict_eq_of_getLast hg]

/-- Claim C5 witness: On Monday 2026-01-05 the ADDED exception brings `S2` in
even though no calendar row lists it, and the REMOVED exception drops `S1`
even though its calendar row applies. -/
theorem getActiveServices_spec_witness :
    "S2" ∈ getActiveServices exCalGtfs "20260105" 1 ∧
      "S1" ∉ getActiveServices exCalGtfs "20260105" 1 := by
  constructor
  · exact (getActiveServices_spec exCalGtfs "20260105" 1 "S2").mpr (by decide)
  · intro h
    exact absurd ((getActiveServices_spec exCalGtfs "20260105" 1 "S1").mp h) (by decide)

/-! Claim C7 -/

/-- Claim C7: In the moving state of a trip without a shape, the snapshot's
position is the direct linear interpolation of the two stop coordinates by
`progress = (time - departure) / (arrival - departure)`. -/
theorem calculateTrainPosition_no_shape_linear (g : GtfsData) (trip : Trip) (time : ℚ)
    (prevStop nextStop lastStop : StopTime)
    (hscan : scanStops time trip.stop_times = ScanResult.move prevStop nextStop)
    (hlast : trip.stop_times.getLast? = some lastStop)
    (hshape : g.shapesById trip.shape_id = none) :
    calculateTrainPosition g trip time =
      some (straightSnapshot g trip time prevStop nextStop lastStop) ∧
    (straightSnapshot g trip time prevStop nextStop lastStop).lat =
      (g.stopsById prevStop.stop_id).lat +
        ((g.stopsById nextStop.stop_id).lat - (g.stopsById prevStop.stop_id).lat) *
          ((time - prevStop.departure) / (nextStop.arrival - prevStop.departure)) ∧
    (straightSnapshot g trip time prevStop nextStop lastStop).lon =
      (g.stopsById prevStop.stop_id).lon +
        ((g.stopsById nextStop.stop_id).lon - (g.stopsById prevStop.stop_id).lon) *
          ((time - prevStop.departure) / (nextStop.arrival - prevStop.departure)) ∧
    (straightSnapshot g trip time prevStop nextStop lastStop).status = "moving" := by
  refine ⟨?_, rfl, rfl, rfl⟩
  simp only [calculateTrainPosition, hscan, hlast, hshape]

/-- Claim C7 witness: At `time = departure + 50` on the 100 s shapeless hop the
computed position is the arithmetic midpoint of the stop coordinates. -/
theorem calculateTrainPosition_no_shape_linear_witness :
    ∃ snap, calculateTrainPosition exGtfsC7 exTripC7 50 = some snap ∧
      snap.status = "moving" ∧ snap.lat = 5 ∧ snap.lon = 10 := by
  have h := calculateTrainPosition_no_shape_linear exGtfsC7 exTripC7 50
    { stop_id := "A", arrival := 0, departure := 0, shape_dist := none }
    { stop_id := "B", arrival := 100, departure := 100, shape_dist := none }
    { stop_id := "B", arrival := 100, departure := 100, shape_dist := none }
    (by decide) rfl rfl
  have hBA : ¬("B" : String) = "A" := by decide
  refine ⟨_, h.1, h.2.2.2, ?_, ?_⟩
  · rw [h.2.1]
    norm_num [exGtfsC7, if_neg hBA]
  · rw [h.2.2.1]
    norm_num [exGtfsC7, if_neg hBA]

/-! Claim C8 -/

/-- Claim C8: With known bracketing distances `distA ≤ distB` and a time inside
`[departure, next arrival)`, the target distance fed to the shape lookup lies
in the closed interval `[distA, distB]`. -/
theorem currentDistance_bounds (prevStop nextStop : StopTime) (time distA distB : ℚ)
    (hAB : distA ≤ distB) (h1 : prevStop.departure ≤ time) (h2 : time < nextStop.arrival) :
    distA ≤ currentDistance prevStop nextStop time distA distB ∧
      currentDistance prevStop nextStop time distA distB ≤ distB := by
  have hT : 0 < nextStop.arrival - prevStop.departure := by linarith
  have he0 : 0 ≤ time - prevStop.departure := by linarith
  have heT : time - prevStop.departure ≤ nextStop.arrival - prevStop.departure := by linarith
  have hr0 : 0 ≤ (time - prevStop.departure) / (nextStop.arrival - prevStop.departure) :=
    div_nonneg he0 hT.le
  have hr1 : (time - prevStop.departure) / (nextStop.arrival - prevStop.departure) ≤ 1 :=
    (div_le_one hT).mpr heT
  simp only [currentDistance]
  constructor
  · nlinarith [mul_nonneg (sub_nonneg.mpr hAB) hr0]
  · nlinarith [mul_nonneg (sub_nonneg.mpr hAB) (sub_nonneg.mpr hr1)]

/-- Claim C8 witness: Halfway through a hop with distances 0 and 1000, the
target distance (500) stays inside `[0, 1000]`. -/
theorem currentDistance_bounds_witness :
    (0 : ℚ) ≤ currentDistance { stop_id := "A", arrival := 0, departure := 0, shape_dist := some 0 }
        { stop_id := "B", arrival := 100, departure := 100, shape_dist := some 1000 } 50 0 1000 ∧
      currentDistance { stop_id := "A", arrival := 0, departure := 0, shape_dist := some 0 }
        { stop_id := "B", arrival := 100, departure := 100, shape_dist := some 1000 } 50 0 1000 ≤ 1000 :=
  currentDistance_bounds
    { stop_id := "A", arrival := 0, departure := 0, shape_dist := some 0 }
    { stop_id := "B", arrival := 100, departure := 100, shape_dist := some 1000 }
    50 0 1000 (by decide) (by decide) (by decide)

/-! Claim C10 -/

/-- The loop of `getPointAtDistance` returns `none` when no consecutive point
pair brackets the target distance. -/
theorem gpadLoop_eq_none {targetDist : ℚ} {trip : Trip} :
    ∀ {ps : List ShapePoint},
      (∀ pq ∈ ps.zip ps.tail, ¬(pq.1.dist ≤ targetDist ∧ targetDist ≤ pq.2.dist)) →
      gpadLoop targetDist trip ps = none := by
  intro ps
  induction ps with
  | nil => intro _; rfl
  | cons p qs ih =>
    intro h
    cases qs with
    | nil => rfl
    | cons q rest =>
      have hhead : (p, q) ∈ (p :: q :: rest).zip (q :: rest) := by
        rw [List.zip_cons_cons]
        exact List.mem_cons_self _ _
      rw [gpadLoop, if_neg (h (p, q) hhead)]
      refine ih (fun pq hm => h pq ?_)
      have hm' : pq ∈ (q :: rest).zip rest := hm
      have hlift : pq ∈ (p :: q :: rest).zip (q :: rest) := by
        rw [List.zip_cons_cons]
        exact List.mem_cons_of_mem _ hm'
      exact hlift

/-- Claim C10: The moving-state computation is total even when the target
distance falls outside the shape's distance range: `getPointAtDistance`
returns `none` (no error) whenever no consecutive point pair brackets the
target, and `calculateTrainPosition` then silently falls back to the
straight-line snapshot, which still carries next-stop and destination
fields. -/
theorem getPointAtDistance_total_fallback :
    (∀ (shape : Shape) (targetDist : ℚ) (trip : Trip),
       (∀ pq ∈ shape.points.zip shape.points.tail,
          ¬(pq.1.dist ≤ targetDist ∧ targetDist ≤ pq.2.dist)) →
       getPointAtDistance shape targetDist trip = none)
    ∧ (∀ (g : GtfsData) (trip : Trip) (time : ℚ) (prevStop nextStop lastStop : StopTime)
         (shape : Shape) (distA distB : ℚ),
       scanStops time trip.stop_times = ScanResult.move prevStop nextStop →
       trip.stop_times.getLast? = some lastStop →
       g.shapesById trip.shape_id = some shape →
       prevStop.shape_dist = some distA →
       nextStop.shape_dist = some distB →
       getPointAtDistance shape (currentDistance prevStop nextStop time distA distB) trip = none →
       calculateTrainPosition g trip time =
           some (straightSnapshot g trip time prevStop nextStop lastStop) ∧
         (straightSnapshot g trip time prevStop nextStop lastStop).status = "moving" ∧
         (straightSnapshot g trip time prevStop nextStop lastStop).next_stop_id =
           nextStop.stop_id ∧
         (straightSnapshot g trip time prevStop nextStop lastStop).next_stop_arrival =
           nextStop.arrival ∧
         (straightSnapshot g trip time prevStop nextStop lastStop).destination_name =
           (g.stopsById lastStop.stop_id).name ∧
         (straightSnapshot g trip time prevStop nextStop lastStop).destination_arrival =
           lastStop.arrival) := by
  constructor
  · intro shape targetDist trip h
    exact gpadLoop_eq_none h
  · intro g trip time prevStop nextStop lastStop shape distA distB hscan hlast hsh hda hdb hgp
    refine ⟨?_, rfl, rfl, rfl, rfl, rfl⟩
    simp only [calculateTrainPosition, hscan, hlast, hsh, hda, hdb, hgp]

/-- Claim C10 witness: Halfway through the hop the target distance is 500,
outside the shape's `[0, 10]` span: the shape lookup yields `none` and the
tick still produces a moving snapshot with next-stop and destination
fields. -/
theorem getPointAtDistance_total_fallback_witness :
    getPointAtDistance exShapeC10 500 exTripC10 = none ∧
      ∃ snap, calculateTrainPosition exGtfsC10 exTripC10 50 = some snap ∧
        snap.status = "moving" ∧ snap.next_stop_id = "B" ∧
        snap.destination_name = "Stop B" ∧ snap.destination_arrival = 100 := by
  have hcd : currentDistance
      { stop_id := "A", arrival := 0, departure := 0, shape_dist := some 0 }
      { stop_id := "B", arrival := 100, departure := 100, shape_dist := some 1000 }
      50 0 1000 = 500 := by
    simp only [currentDistance]
    norm_num
  constructor
  · exact getPointAtDistance_total_fallback.1 exShapeC10 500 exTripC10 (by decide)
  · have h2 := getPointAtDistance_total_fallback.2 exGtfsC10 exTripC10 50
      { stop_id := "A", arrival := 0, departure := 0, shape_dist := some 0 }
      { stop_id := "B", arrival := 100, departure := 100, shape_dist := some 1000 }
      { stop_id := "B", arrival := 100, departure := 100, shape_dist := some 1000 }
      exShapeC10 0 1000 (by decide) rfl rfl rfl rfl (by rw [hcd]; decide)
    refine ⟨_, h2.1, h2.2.1, ?_, ?_, ?_⟩
    · rw [h2.2.2.1]
    · rw [h2.2.2.2.2.1]
      decide
    · rw [h2.2.2.2.2.2]

/-! Claim C9 -/

/-- A separator-free string is returned whole by the split. -/
theorem splitOnChar_not_mem {c : Char} :
    ∀ {l : List Char}, c ∉ l → splitOnChar c l = [l] := by
  intro l
  induction l with
  | nil => intro _; rfl
  | cons x xs ih =>
    intro h
    simp only [List.mem_cons, not_or] at h
    rw [splitOnChar, if_neg (by simp only [beq_iff_eq]; exact fun he => h.1 he.symm),
      ih h.2]

/-- Splitting peels off a separator-free chunk before the first separator. -/
theorem splitOnChar_append {c : Char} :
    ∀ {l₁ l₂ : List Char}, c ∉ l₁ →
      splitOnChar c (l₁ ++ c :: l₂) = l₁ :: splitOnChar c l₂ := by
  intro l₁
  induction l₁ with
  | nil =>
    intro l₂ _
    rw [List.nil_append, splitOnChar, if_pos (by simp)]
  | cons x xs ih =>
    intro l₂ h
    simp only [List.mem_cons, not_or] at h
    rw [List.cons_append, splitOnChar,
      if_neg (by simp only [beq_iff_eq]; exact fun he => h.1 he.symm), ih h.2]

/-- JS `Number` on an all-digit component. -/
theorem jsNumberOfDigits_digits {cs : List Char} (h : cs.all Char.isDigit = true) :
    jsNumberOfDigits cs = JsNum.num (digitsVal cs) := by
  unfold jsNumberOfDigits
  rw [if_pos h]

/-- Claim C9, amended: `parseTime` never raises: an empty (falsy) string
parses to 0 and a well-formed `HH:MM:SS` digit string parses to
`HH*3600 + MM*60 + SS` (values past 24:00:00 permitted), but a malformed
non-empty string propagates JS `NaN` instead of parsing to zero. -/
theorem parseTime_spec :
    (∀ (H M S : List Char), H.all Char.isDigit = true → M.all Char.isDigit = true →
      S.all Char.isDigit = true →
      parseTime (String.mk (H ++ ':' :: (M ++ ':' :: S))) =
        JsNum.num ((digitsVal H : ℚ) * 3600 + (digitsVal M : ℚ) * 60 + (digitsVal S : ℚ)))
    ∧ parseTime "" = JsNum.num 0 := by
  constructor
  · intro H M S hH hM hS
    have hcolon : ∀ (l : List Char), l.all Char.isDigit = true → (':' : Char) ∉ l := by
      intro l hl hm
      exact absurd (List.all_eq_true.mp hl _ hm) (by decide)
    have hne : String.mk (H ++ ':' :: (M ++ ':' :: S)) ≠ "" := by
      intro he
      have hdata := congrArg String.data he
      simp at hdata
    rw [parseTime, if_neg hne]
    have hsplit : splitOnChar ':' (String.mk (H ++ ':' :: (M ++ ':' :: S))).data =
        H :: M :: [S] := by
      show splitOnChar ':' (H ++ ':' :: (M ++ ':' :: S)) = H :: M :: [S]
      rw [splitOnChar_append (hcolon H hH), splitOnChar_append (hcolon M hM),
        splitOnChar_not_mem (hcolon S hS)]
    rw [hsplit]
    simp only [List.map_cons, List.map_nil, jsNumberOfDigits_digits hH,
      jsNumberOfDigits_digits hM, jsNumberOfDigits_digits hS]
    rfl
  · rfl

/-- Claim C9 counterexample: The claim says malformed strings parse to zero:
`"abc"` actually parses to `NaN` (no exception, but not zero either). -/
theorem parseTime_malformed_counterexample :
    parseTime "abc" = JsNum.nan ∧ JsNum.nan ≠ JsNum.num 0 := by
  constructor
  · rfl
  · intro h
    cases h

/-- Claim C9 witness: The amended theorem applied to the well-formed string
`"08:30:05"`. -/
theorem parseTime_spec_witness : parseTime "08:30:05" = JsNum.num 30605 := by
  have h := parseTime_spec.1 ['0','8'] ['3','0'] ['0','5'] (by decide) (by decide) (by decide)
  have hs : ("08:30:05" : String) =
      String.mk (['0','8'] ++ ':' :: (['3','0'] ++ ':' :: ['0','5'])) := by decide
  have e1 : digitsVal ['0','8'] = 8 := by decide
  have e2 : digitsVal ['3','0'] = 30 := by decide
  have e3 : digitsVal ['0','5'] = 5 := by decide
  rw [hs, h, e1, e2, e3]
  norm_num

/-- Evaluation of `findBestStep` on a matching entry, with the stop time resolved. -/
theorem findBestStep_eq_pos (stop_times : List StopTime) (nid : String) (off now : ℚ)
    (destName : String) (bmo : Option BestMatch) (mdo : Option ℚ) (e : PlatformEntry)
    (st : StopTime) (hm : matchesDestination e.Destination destName = true)
    (hfind : List.find? (fun s => s.stop_id == nid) stop_times = some st) :
    findBestStep stop_times nid off now destName (bmo, mdo) e =
      if entryDiff now st off e < 900 ∧ ltMinDiff (entryDiff now st off e) mdo = true then
        (some { apiArrival := entryApiArrival now e, scheduledArrival := st.arrival,
                length := jsOrNull e.Length }, some (entryDiff now st off e))
      else (bmo, mdo) := by
  unfold findBestStep
  rw [if_pos hm, hfind]

/-- The step `findBestStep` skips entries whose destination does not match. -/
theorem findBestStep_eq_not_match (stop_times : List StopTime) (nid : String) (off now : ℚ)
    (destName : String) (acc : Option BestMatch × Option ℚ) (e : PlatformEntry)
    (hm : ¬ matchesDestination e.Destination destName = true) :
    findBestStep stop_times nid off now destName acc e = acc := by
  unfold findBestStep
  rw [if_neg hm]

/-- One `findBestStep` preserves the invariant. -/
theorem fbInv_step (destName : String) (st : StopTime) (nid : String) (off now : ℚ)
    (stop_times : List StopTime)
    (hfind : List.find? (fun s => s.stop_id == nid) stop_times = some st)
    (processed : List PlatformEntry) (acc : Option BestMatch × Option ℚ)
    (e : PlatformEntry) (h : FbInv destName st off now processed acc) :
    FbInv destName st off now (processed ++ [e])
      (findBestStep stop_times nid off now destName acc e) := by
  obtain ⟨bmo, mdo⟩ := acc
  by_cases hm : matchesDestination e.Destination destName = true
  · rw [findBestStep_eq_pos stop_times nid off now destName bmo mdo e st hm hfind]
    match bmo, mdo with
    | none, none =>
      by_cases hc : entryDiff now st off e < 900 ∧
          ltMinDiff (entryDiff now st off e) none = true
      · rw [if_pos hc]
        refine ⟨hc.1, rfl,
          ⟨e, List.mem_append_right _ (List.mem_singleton.mpr rfl), hm, rfl, rfl⟩, ?_⟩
        intro f hf hmf
        rcases List.mem_append.mp hf with hf1 | hf2
        · exact le_trans hc.1.le (h f hf1 hmf)
        · rw [List.mem_singleton.mp hf2]
      · rw [if_neg hc]
        intro f hf hmf
        rcases List.mem_append.mp hf with hf1 | hf2
        · exact h f hf1 hmf
        · rw [List.mem_singleton.mp hf2]
          have hnl : ¬ entryDiff now st off e < 900 := fun hlt => hc ⟨hlt, rfl⟩
          exact le_of_not_lt hnl
    | some bm, some d =>
      obtain ⟨hd900, hsch, ⟨e0, he0, hme0, hde0, hapi0⟩, hmin⟩ := h
      by_cases hc : entryDiff now st off e < 900 ∧
          ltMinDiff (entryDiff now st off e) (some d) = true
      · rw [if_pos hc]
        have hlt : entryDiff now st off e < d := of_decide_eq_true hc.2
        refine ⟨hc.1, rfl,
          ⟨e, List.mem_append_right _ (List.mem_singleton.mpr rfl), hm, rfl, rfl⟩, ?_⟩
        intro f hf hmf
        rcases List.mem_append.mp hf with hf1 | hf2
        · exact le_trans hlt.le (hmin f hf1 hmf)
        · rw [List.mem_singleton.mp hf2]
      · rw [if_neg hc]
        refine ⟨hd900, hsch, ⟨e0, List.mem_append_left _ he0, hme0, hde0, hapi0⟩, ?_⟩
        intro f hf hmf
        rcases List.mem_append.mp hf with hf1 | hf2
        · exact hmin f hf1 hmf
        · rw [List.mem_singleton.mp hf2]
          rcases not_and_or.mp hc with h1 | h2
          · exact le_trans hd900.le (not_lt.mp h1)
          · have hnl : ¬ entryDiff now st off e < d := fun hlt => h2 (decide_eq_true hlt)
            exact not_lt.mp hnl
    | none, some d => exact (by simpa [FbInv] using h : False).elim
    | some bm, none => exact (by simpa [FbInv] using h : False).elim
  · rw [findBestStep_eq_not_match stop_times nid off now destName (bmo, mdo) e hm]
    match bmo, mdo with
    | none, none =>
      intro f hf hmf
      rcases List.mem_append.mp hf with hf1 | hf2
      · exact h f hf1 hmf
      · rw [List.mem_singleton.mp hf2] at hmf
        exact absurd hmf hm
    | some bm, some d =>
      obtain ⟨hd900, hsch, ⟨e0, he0, hme0, hde0, hapi0⟩, hmin⟩ := h
      refine ⟨hd900, hsch, ⟨e0, List.mem_append_left _ he0, hme0, hde0, hapi0⟩, ?_⟩
      intro f hf hmf
      rcases List.mem_append.mp hf with hf1 | hf2
      · exact hmin f hf1 hmf
      · rw [List.mem_singleton.mp hf2] at hmf
        exact absurd hmf hm
    | none, some d => exact (by simpa [FbInv] using h : False).elim
    | some bm, none => exact (by simpa [FbInv] using h : False).elim

/-- The fold preserves the invariant over any suffix of entries. -/
theorem fbInv_foldl (destName : String) (st : StopTime) (nid : String) (off now : ℚ)
    (stop_times : List StopTime)
    (hfind : List.find? (fun s => s.stop_id == nid) stop_times = some st) :
    ∀ (l processed : List PlatformEntry) (acc : Option BestMatch × Option ℚ),
      FbInv destName st off now processed acc →
      FbInv destName st off now (processed ++ l)
        (l.foldl (findBestStep stop_times nid off now destName) acc) := by
  intro l
  induction l with
  | nil => intro processed acc h; simpa using h
  | cons e rest ih =>
    intro processed acc h
    have hstep := fbInv_step destName st nid off now stop_times hfind processed acc e h
    have := ih (processed ++ [e]) _ hstep
    simpa [List.append_assoc] using this

/-- JS `Map.set` then `Map.get` at the same key returns the new value. -/
theorem lookup_mapSet_self {α : Type} : ∀ (m : List (String × α)) (k : String) (v : α),
    List.lookup k (mapSet m k v) = some v := by
  intro m k v
  unfold mapSet
  by_cases h : m.any (fun p => p.1 == k) = true
  · rw [if_pos h]
    induction m with
    | nil => simp at h
    | cons p ps ih =>
      simp only [List.any_cons, Bool.or_eq_true] at h
      by_cases hp : (p.1 == k) = true
      · simp only [List.map_cons, if_pos hp]
        simp [List.lookup_cons]
      · have hps : ps.any (fun p => p.1 == k) = true := by
          rcases h with h1 | h2
          · exact absurd h1 hp
          · exact h2
        simp only [List.map_cons, if_neg hp]
        rw [List.lookup_cons]
        have hk : (k == p.1) = false := by
          rw [beq_eq_false_iff_ne]
          intro he
          exact hp (by rw [beq_iff_eq]; exact he.symm)
        rw [hk]
        exact ih hps
  · rw [if_neg h]
    induction m with
    | nil => simp [List.lookup_cons]
    | cons p ps ih =>
      simp only [List.any_cons, Bool.or_eq_true, not_or] at h
      rw [List.cons_append, List.lookup_cons]
      have hk : (k == p.1) = false := by
        rw [beq_eq_false_iff_ne]
        intro he
        exact h.1 (by rw [beq_iff_eq]; exact he.symm)
      rw [hk]
      exact ih (by simpa using h.2)

/-- Claim C2, amended: For a running trip with resolvable next stop: a
matching entry is rejected exactly when `diff ≥ 900` (so `diff = 900`, which
is not *greater* than 900, is also rejected); when a best match exists it is
a matching entry with `diff < 900` minimal among all matching entries; and
the stored offset is then overwritten with
`apiArrival - scheduledArrivalAtNextStop`, replacing any previous value. -/
theorem findBestMatch_spec (platforms : List PlatformEntry) (destName : String)
    (stop_times : List StopTime) (nid : String) (off now : ℚ) (st : StopTime)
    (hfind : List.find? (fun s => s.stop_id == nid) stop_times = some st) :
    ((∀ e ∈ platforms, matchesDestination e.Destination destName = true →
        900 ≤ entryDiff now st off e) →
      findBestMatch platforms destName stop_times nid off now = none)
    ∧ (∀ bm, findBestMatch platforms destName stop_times nid off now = some bm →
        bm.scheduledArrival = st.arrival ∧
        ∃ e ∈ platforms, matchesDestination e.Destination destName = true ∧
          entryDiff now st off e < 900 ∧ bm.apiArrival = entryApiArrival now e ∧
          ∀ f ∈ platforms, matchesDestination f.Destination destName = true →
            entryDiff now st off e ≤ entryDiff now st off f)
    ∧ ((∃ e ∈ platforms, matchesDestination e.Destination destName = true ∧
          entryDiff now st off e < 900) →
        findBestMatch platforms destName stop_times nid off now ≠ none)
    ∧ (∀ bm offsets tripId,
        findBestMatch platforms destName stop_times nid off now = some bm →
        List.lookup tripId (syncOffsets offsets tripId (some bm)) =
          some (bm.apiArrival - bm.scheduledArrival)) := by
  have hinv0 : FbInv destName st off now [] ((none, none) : Option BestMatch × Option ℚ) := by
    intro f hf
    cases hf
  have hinv := fbInv_foldl destName st nid off now stop_times hfind platforms []
    ((none, none)) hinv0
  rw [List.nil_append] at hinv
  rcases hR : platforms.foldl (findBestStep stop_times nid off now destName)
      ((none, none) : Option BestMatch × Option ℚ) with ⟨bmo, mdo⟩
  rw [hR] at hinv
  have hfbm : findBestMatch platforms destName stop_times nid off now = bmo := by
    unfold findBestMatch
    rw [hR]
  refine ⟨?_, ?_, ?_, ?_⟩
  · intro hall
    rw [hfbm]
    cases bmo with
    | none => rfl
    | some bm =>
      cases mdo with
      | none => exact ((by simpa [FbInv] using hinv : False)).elim
      | some d =>
        obtain ⟨hd900, _, ⟨e, he, hme, hde, _⟩, _⟩ := hinv
        have h900 : 900 ≤ d := by
          rw [← hde]
          exact hall e he hme
        exact absurd h900 (not_le.mpr hd900)
  · intro bm hbm
    rw [hfbm] at hbm
    rw [hbm] at hinv
    cases mdo with
    | none => exact ((by simpa [FbInv] using hinv : False)).elim
    | some d =>
      obtain ⟨hd900, hsch, ⟨e, he, hme, hde, hapi⟩, hmin⟩ := hinv
      refine ⟨hsch, e, he, hme, ?_, hapi, ?_⟩
      · rw [hde]
        exact hd900
      · intro f hf hmf
        rw [hde]
        exact hmin f hf hmf
  · rintro ⟨e, he, hme, hde⟩ hcontra
    rw [hfbm] at hcontra
    rw [hcontra] at hinv
    cases mdo with
    | none => exact absurd (hinv e he hme) (not_le.mpr hde)
    | some d => exact ((by simpa [FbInv] using hinv : False)).elim
  · intro bm offsets tripId _
    unfold syncOffsets
    exact lookup_mapSet_self offsets tripId _

/-- Claim C2 counterexample: A matching live entry whose `diff` is exactly 900
seconds — not *greater* than 900 — is nevertheless rejected (`diff < 900` in
the code is strict), so no best match is selected and no offset is written. -/
theorem findBestMatch_900_counterexample :
    matchesDestination "Plentzia" "Plentzia" = true ∧
    entryDiff 35100 { stop_id := "STOP1", arrival := 36000, departure := 36000, shape_dist := none }
      0 { Destination := "Plentzia", Minutes := "0", Length := none } = 900 ∧
    ¬ ((900 : ℚ) > 900) ∧
    findBestMatch [{ Destination := "Plentzia", Minutes := "0", Length := none }] "Plentzia"
      [{ stop_id := "STOP1", arrival := 36000, departure := 36000, shape_dist := none }]
      "STOP1" 0 35100 = none := by
  have hm : matchesDestination "Plentzia" "Plentzia" = true := by decide
  have hp0 : jsParseInt "0" = some 0 := by decide
  have hd : entryDiff 35100
      { stop_id := "STOP1", arrival := 36000, departure := 36000, shape_dist := none } 0
      { Destination := "Plentzia", Minutes := "0", Length := none } = 900 := by
    simp only [entryDiff, entryApiArrival, hp0]
    norm_num
  refine ⟨hm, hd, by norm_num, ?_⟩
  have hfind : List.find? (fun (s : StopTime) => s.stop_id == "STOP1")
      [{ stop_id := "STOP1", arrival := 36000, departure := 36000,
         shape_dist := (none : Option ℚ) }] =
      some { stop_id := "STOP1", arrival := 36000, departure := 36000, shape_dist := none } := rfl
  unfold findBestMatch
  simp only [List.foldl_cons, List.foldl_nil]
  rw [findBestStep_eq_pos _ _ _ _ _ _ _ _
    { stop_id := "STOP1", arrival := 36000, departure := 36000, shape_dist := none } hm hfind]
  rw [if_neg (fun hcc => absurd (hd ▸ hcc.1) (by norm_num))]

/-- Claim C2 witness: The claim's offset-selection example: scheduled arrival
36000 s, reconciliation at 35700 s, one matching entry reporting 5 minutes:
predicted arrival 36000, diff 0, entry selected, and the stored offset for
the trip is replaced (here: a stale 120 s) by 0. -/
theorem findBestMatch_spec_witness :
    findBestMatch [{ Destination := "Plentzia", Minutes := "5", Length := none }] "Plentzia"
      [{ stop_id := "STOP1", arrival := 36000, departure := 36000, shape_dist := none }]
      "STOP1" 0 35700 = some { apiArrival := 36000, scheduledArrival := 36000, length := none } ∧
    List.lookup "T1" (syncOffsets [("T1", 120)] "T1"
      (some { apiArrival := 36000, scheduledArrival := 36000, length := none })) = some 0 := by
  have hfind : List.find? (fun (s : StopTime) => s.stop_id == "STOP1")
      [{ stop_id := "STOP1", arrival := 36000, departure := 36000,
         shape_dist := (none : Option ℚ) }] =
      some { stop_id := "STOP1", arrival := 36000, departure := 36000, shape_dist := none } := rfl
  have hm : matchesDestination "Plentzia" "Plentzia" = true := by decide
  have hp5 : jsParseInt "5" = some 5 := by decide
  have hapi : entryApiArrival 35700 { Destination := "Plentzia", Minutes := "5", Length := none } =
      36000 := by
    simp only [entryApiArrival, hp5]
    norm_num
  have hd : entryDiff 35700
      { stop_id := "STOP1", arrival := 36000, departure := 36000, shape_dist := none } 0
      { Destination := "Plentzia", Minutes := "5", Length := none } = 0 := by
    simp only [entryDiff, hapi]
    norm_num
  have hfbm : findBestMatch
      [{ Destination := "Plentzia", Minutes := "5", Length := none }] "Plentzia"
      [{ stop_id := "STOP1", arrival := 36000, departure := 36000, shape_dist := none }]
      "STOP1" 0 35700 =
      some { apiArrival := 36000, scheduledArrival := 36000, length := none } := by
    unfold findBestMatch
    simp only [List.foldl_cons, List.foldl_nil]
    rw [findBestStep_eq_pos _ _ _ _ _ _ _ _
      { stop_id := "STOP1", arrival := 36000, departure := 36000, shape_dist := none } hm hfind]
    rw [if_pos ⟨by rw [hd]; norm_num, rfl⟩]
    simp [hapi, jsOrNull]
  refine ⟨hfbm, ?_⟩
  have h4 := (findBestMatch_spec
    [{ Destination := "Plentzia", Minutes := "5", Length := none }] "Plentzia"
    [{ stop_id := "STOP1", arrival := 36000, departure := 36000, shape_dist := none }]
    "STOP1" 0 35700
    { stop_id := "STOP1", arrival := 36000, departure := 36000, shape_dist := none }
    hfind).2.2.2
    { apiArrival := 36000, scheduledArrival := 36000, length := none } [("T1", 120)] "T1" hfbm
  simpa using h4

/-! Claim C6 -/

/-- JS `Map.set` introduces at most the written key. -/
theorem mem_keys_mapSet {α : Type} {m : List (String × α)} {k x : String} {v : α}
    (h : x ∈ (mapSet m k v).map Prod.fst) : x = k ∨ x ∈ m.map Prod.fst := by
  unfold mapSet at h
  split_ifs at h with hany
  · simp only [List.map_map, List.mem_map, Function.comp] at h
    obtain ⟨p, hp, hpx⟩ := h
    by_cases hpk : (p.1 == k) = true
    · rw [if_pos hpk] at hpx
      left
      exact hpx.symm
    · rw [if_neg hpk] at hpx
      right
      exact List.mem_map.mpr ⟨p, hp, hpx⟩
  · simp only [List.map_append, List.mem_append, List.map_cons, List.map_nil,
      List.mem_singleton] at h
    rcases h with h1 | h2
    · right
      exact h1
    · left
      exact h2

/-- One tick step writes only the processed trip's key. -/
theorem updateStep_keys_one (g : GtfsData) (s : SimState) (now : NowInfo)
    (acc : List (String × TripState) × List Snapshot) (trip : Trip) (x : String)
    (h : x ∈ ((updateStep g s now acc trip).1.map Prod.fst)) :
    x = trip.id ∨ x ∈ acc.1.map Prod.fst := by
  simp only [updateStep] at h
  exact mem_keys_mapSet h

/-- The tick fold writes only keys of processed trips. -/
theorem updateStep_keys (g : GtfsData) (s : SimState) (now : NowInfo) :
    ∀ (trips : List Trip) (acc : List (String × TripState) × List Snapshot) (x : String),
      x ∈ ((trips.foldl (updateStep g s now) acc).1.map Prod.fst) →
      x ∈ acc.1.map Prod.fst ∨ x ∈ trips.map (fun t => t.id) := by
  intro trips
  induction trips with
  | nil => intro acc x h; exact Or.inl h
  | cons t ts ih =>
    intro acc x h
    simp only [List.foldl_cons] at h
    rcases ih _ x h with h1 | h2
    · rcases updateStep_keys_one g s now acc t x h1 with he | hm
      · right
        rw [he]
        exact List.mem_map.mpr ⟨t, List.mem_cons_self _ _, rfl⟩
      · left
        exact hm
    · right
      simp only [List.map_cons, List.mem_cons]
      exact Or.inr h2

/-- Claim C6, amended: After a tick, the smoothing-state store holds keys only
for trips of the current active set (states of trips that left it are
removed), but the real-time offset store is returned *unchanged*: `update`
never deletes offset entries, so stale offsets of inactive trips persist. -/
theorem update_cleanup_spec (g : GtfsData) (s : SimState) (now : NowInfo)
    (hne : ∀ trip ∈ g.trips, trip.stop_times ≠ []) :
    (∀ x ∈ ((update g s now).1.tripStates.map Prod.fst),
       x ∈ (selectCurrentTrips g s now).map (fun t => t.id))
    ∧ (update g s now).1.realTimeOffsets = s.realTimeOffsets := by
  constructor
  · intro x hx
    have hx' : x ∈ (((selectCurrentTrips g s now).foldl (updateStep g s now)
        (s.tripStates.filter
          (fun p => ((selectCurrentTrips g s now).map (fun t => t.id)).contains p.1), [])).1.map
          Prod.fst) := hx
    rcases updateStep_keys g s now (selectCurrentTrips g s now) _ x hx' with h1 | h2
    · simp only [List.mem_map] at h1
      obtain ⟨p, hp, hpx⟩ := h1
      have hc := (List.mem_filter.mp hp).2
      have hmem : p.1 ∈ (selectCurrentTrips g s now).map (fun t => t.id) :=
        List.elem_iff.mp hc
      rw [← hpx]
      exact hmem
    · exact h2
  · rfl

/-- Claim C6 counterexample: On a tick where trip `t1` is not active, its
smoothing state is removed but its offset entry survives, so the offset
store holds a key outside the (empty) active set — refuting the claim that
the tick removes both. -/
theorem update_offsets_not_pruned_counterexample :
    selectCurrentTrips exGtfsC6 exStateC6 exNowC6 = [] ∧
    (update exGtfsC6 exStateC6 exNowC6).1.tripStates = [] ∧
    (update exGtfsC6 exStateC6 exNowC6).1.realTimeOffsets = [("t1", 60)] :=
  ⟨rfl, rfl, rfl⟩

/-- Claim C6 witness: The amended theorem applied to the C6 example: the offset
store comes back unchanged. -/
theorem update_cleanup_spec_witness :
    (update exGtfsC6 exStateC6 exNowC6).1.realTimeOffsets = exStateC6.realTimeOffsets :=
  (update_cleanup_spec exGtfsC6 exStateC6 exNowC6
    (fun t ht => absurd ht (List.not_mem_nil t))).2

end MetroSim
